import Mathlib

/-!
Verification of the roguelike ECS core: a shallow embedding of the
component store, entity manager, movement/occupancy resolver, combat
resolver, AI decision engine and turn orchestrator, with theorems
settling the specification's claims about them.

Python dictionaries are modelled as association lists with first-match
lookup; `dinsert` replaces the first binding in place (as dict update
does) and `derase` removes every binding of the key (identical to dict
deletion, since dict keys are unique).  Python `//` is floor division,
modelled by `Int.fdiv`.  Python sets are modelled as duplicate-free
lists with membership-guarded insertion.
-/

set_option maxHeartbeats 1000000

namespace Roguelike

/-- Lookup of a key in an association list, first match wins (dict access). -/
def dfind {α β : Type} [DecidableEq α] (d : List (α × β)) (k : α) : Option β :=
  match d with
  | [] => none
  | (k', v) :: rest => if k' = k then some v else dfind rest k

/-- Replace the first binding of `k` in place, or append it (dict update). -/
def dinsert {α β : Type} [DecidableEq α] (d : List (α × β)) (k : α) (v : β) :
    List (α × β) :=
  match d with
  | [] => [(k, v)]
  | (k', v') :: rest =>
      if k' = k then (k, v) :: rest else (k', v') :: dinsert rest k v

/-- Remove every binding of `k` (dict deletion; dict keys are unique). -/
def derase {α β : Type} [DecidableEq α] (d : List (α × β)) (k : α) :
    List (α × β) :=
  match d with
  | [] => []
  | (k', v') :: rest =>
      if k' = k then derase rest k else (k', v') :: derase rest k

/-- The keys of an association list, in order. -/
def dkeys {α β : Type} (d : List (α × β)) : List α :=
  d.map Prod.fst

/-- Membership-guarded insertion into a list used as a Python set. -/
def sinsert {α : Type} [DecidableEq α] (l : List α) (x : α) : List α :=
  if x ∈ l then l else l ++ [x]

/-- Removal from a list used as a Python set. -/
def sremove {α : Type} [DecidableEq α] (l : List α) (x : α) : List α :=
  l.filter fun y => decide (y ≠ x)

/-! ## Components (src/components) -/

/-- `Health` component: `current`, `max`, `is_dead`, as in health.py. -/
structure Health where
  current : Int
  max : Int
  is_dead : Bool
  deriving DecidableEq, Repr

/-- `Health.__init__(current, max_health)`: `is_dead` starts `False`. -/
def Health.init (current max_health : Int) : Health :=
  ⟨current, max_health, false⟩

/-- `Health.take_damage`: clamps `current` at 0, sets `is_dead` on the first
time `current` reaches 0, and returns whether this call killed the entity. -/
def Health.take_damage (h : Health) (amount : Int) : Health × Bool :=
  let current' := Max.max 0 (h.current - amount)
  if current' ≤ 0 ∧ h.is_dead = false then
    ({ h with current := current', is_dead := true }, true)
  else
    ({ h with current := current' }, false)

/-- `Health.heal`: no-op on a dead entity, otherwise clamps at `max`. -/
def Health.heal (h : Health) (amount : Int) : Health :=
  if h.is_dead then h
  else { h with current := Min.min h.max (h.current + amount) }

/-- `Health.is_alive`. -/
def Health.is_alive (h : Health) : Bool :=
  !h.is_dead

/-- The invariant `0 ≤ current ≤ max` from the data-model section. -/
def healthValid (h : Health) : Prop :=
  0 ≤ h.current ∧ h.current ≤ h.max

instance (h : Health) : Decidable (healthValid h) := by
  unfold healthValid; infer_instance

/-- A Health mutation: one `take_damage` or one `heal` call. -/
inductive HOp where
  | damage (amount : Int)
  | heal (amount : Int)
  deriving DecidableEq, Repr

/-- The amount carried by a Health mutation. -/
def HOp.amount : HOp → Int
  | .damage a => a
  | .heal a => a

/-- Apply one Health mutation (the kill flag of `take_damage` is dropped). -/
def applyHOp (h : Health) : HOp → Health
  | .damage a => (h.take_damage a).1
  | .heal a => h.heal a

/-- Run a sequence of Health mutations. -/
def runHOps (h : Health) (ops : List HOp) : Health :=
  ops.foldl applyHOp h

/-- The claim's own precondition set: construction-valid start and
non-negative `take_damage` amounts, with `heal` amounts unconstrained. -/
def damageAmountsNonneg (ops : List HOp) : Prop :=
  ∀ a : Int, HOp.damage a ∈ ops → 0 ≤ a

instance (ops : List HOp) : Decidable (damageAmountsNonneg ops) := by
  unfold damageAmountsNonneg
  induction ops with
  | nil => exact isTrue (by simp)
  | cons op rest ih =>
      cases ih with
      | isTrue hrest =>
          cases op with
          | damage a =>
              by_cases ha : 0 ≤ a
              · exact isTrue (by
                  intro b hb
                  rcases List.mem_cons.1 hb with hb | hb
                  · cases hb; exact ha
                  · exact hrest b hb)
              · exact isFalse (fun hall => ha (hall a (by simp)))
          | heal a =>
              exact isTrue (by
                intro b hb
                rcases List.mem_cons.1 hb with hb | hb
                · cases hb
                · exact hrest b hb)
      | isFalse hrest =>
          exact isFalse (fun hall => hrest fun b hb => hall b (by simp [hb]))

/-- `CombatStats` component: `attack`, `defense`, `power`. -/
structure CombatStats where
  attack : Int
  defense : Int
  power : Int
  deriving DecidableEq, Repr

/-- `CombatStats.calculate_damage`: `max(1, max(0, power - defense // 2))`;
Python `//` is floor division, `Int.fdiv`. -/
def CombatStats.calculate_damage (stats : CombatStats)
    (target_defense : Int) : Int :=
  Max.max 1 (Max.max 0 (stats.power - Int.fdiv target_defense 2))

/-- The claim's damage formula, with division flooring toward zero as the
claim words it (`Int.div` truncates toward zero). -/
def damageSpecTowardZero (power defense : Int) : Int :=
  Max.max 1 (Max.max 0 (power - Int.tdiv defense 2))

/-- The amended damage formula: division flooring toward negative infinity,
which is what Python `//` does. -/
def damageSpecFloor (power defense : Int) : Int :=
  Max.max 1 (Max.max 0 (power - Int.fdiv defense 2))

/-- `Position` component: integer grid coordinates. -/
structure Position where
  x : Int
  y : Int
  deriving DecidableEq, Repr

/-- `ActionType` of an `AIIntent`. -/
inductive ActionType where
  | none
  | move
  | attack
  | wait
  | flee
  | patrol
  deriving DecidableEq, Repr

/-- `AIIntent` component. -/
structure AIIntent where
  action_type : ActionType
  target_entity : Option Nat
  target_position : Option (Int × Int)
  path : List (Int × Int)
  state : String
  deriving DecidableEq, Repr

/-- `AIIntent.__init__`: no intent. -/
def AIIntent.init : AIIntent :=
  ⟨ActionType.none, none, none, [], "idle"⟩

/-- `AIIntent.set_move_intent`. -/
def AIIntent.set_move_intent (i : AIIntent) (x y : Int) : AIIntent :=
  { i with action_type := ActionType.move, target_position := some (x, y),
           target_entity := none }

/-- `AIIntent.set_attack_intent`. -/
def AIIntent.set_attack_intent (i : AIIntent) (target_entity : Nat) : AIIntent :=
  { i with action_type := ActionType.attack, target_entity := some target_entity,
           target_position := none }

/-- `AIIntent.set_wait_intent`. -/
def AIIntent.set_wait_intent (i : AIIntent) : AIIntent :=
  { i with action_type := ActionType.wait, target_entity := none,
           target_position := none }

/-- `AIIntent.clear_intent`. -/
def AIIntent.clear_intent (i : AIIntent) : AIIntent :=
  { i with action_type := ActionType.none, target_entity := none,
           target_position := none }

/-- `TurnState` component. -/
structure TurnState where
  can_act : Bool
  deriving DecidableEq, Repr

/-- The component kinds of the repository (Python keys stores by type). -/
inductive CKind where
  | position
  | health
  | combatStats
  | aiIntent
  | turnState
  | playerTag
  deriving DecidableEq, Repr

instance : Fintype CKind :=
  ⟨⟨{CKind.position, CKind.health, CKind.combatStats, CKind.aiIntent,
     CKind.turnState, CKind.playerTag}, by decide⟩, fun k => by cases k <;> decide⟩

/-- A component value, tagged with its kind. -/
inductive Cmp where
  | position (p : Position)
  | health (h : Health)
  | combatStats (c : CombatStats)
  | aiIntent (i : AIIntent)
  | turnState (t : TurnState)
  | playerTag
  deriving DecidableEq, Repr

/-- `type(component)` — the store key of a component value. -/
def Cmp.kind : Cmp → CKind
  | .position _ => CKind.position
  | .health _ => CKind.health
  | .combatStats _ => CKind.combatStats
  | .aiIntent _ => CKind.aiIntent
  | .turnState _ => CKind.turnState
  | .playerTag => CKind.playerTag

/-! ## Component Store (src/ecs/component_store.py) -/

/-- `ComponentStore`: per-kind entity→component dicts plus the per-entity
kind-set tracking dict (the unused `_systems` dict is omitted). -/
structure ComponentStore where
  component_stores : List (CKind × List (Nat × Cmp))
  entity_components : List (Nat × List CKind)
  deriving DecidableEq, Repr

/-- The empty store. -/
def ComponentStore.init : ComponentStore :=
  ⟨[], []⟩

/-- `ComponentStore.add_component`. -/
def ComponentStore.add_component (s : ComponentStore) (entity_id : Nat)
    (c : Cmp) : ComponentStore :=
  let component_type := c.kind
  let inner := (dfind s.component_stores component_type).getD []
  let kinds := (dfind s.entity_components entity_id).getD []
  { component_stores :=
      dinsert s.component_stores component_type (dinsert inner entity_id c),
    entity_components :=
      dinsert s.entity_components entity_id (sinsert kinds component_type) }

/-- `ComponentStore.remove_component`. -/
def ComponentStore.remove_component (s : ComponentStore) (entity_id : Nat)
    (component_type : CKind) : ComponentStore :=
  match dfind s.component_stores component_type with
  | none => s
  | some inner =>
      if (dfind inner entity_id).isSome then
        let cs := dinsert s.component_stores component_type (derase inner entity_id)
        match dfind s.entity_components entity_id with
        | none => { s with component_stores := cs }
        | some kinds =>
            let kinds' := sremove kinds component_type
            if kinds' = [] then
              { component_stores := cs,
                entity_components := derase s.entity_components entity_id }
            else
              { component_stores := cs,
                entity_components := dinsert s.entity_components entity_id kinds' }
      else s

/-- `ComponentStore.remove_all_components`: iterates over a snapshot of the
entity's tracked kind set, then executes
`del self._entity_components[entity_id]`.  Whenever the loop's removals have
already emptied the kind set — which makes `remove_component` delete the
tracking entry itself — that final `del` raises `KeyError`; the uncaught
exception is modelled as `none`. -/
def ComponentStore.remove_all_components (s : ComponentStore)
    (entity_id : Nat) : Option ComponentStore :=
  match dfind s.entity_components entity_id with
  | none => some s
  | some kinds =>
      let s' := kinds.foldl (fun acc ck => acc.remove_component entity_id ck) s
      match dfind s'.entity_components entity_id with
      | some _ =>
          some { s' with
            entity_components := derase s'.entity_components entity_id }
      | none => none

/-- `ComponentStore.has_component`. -/
def ComponentStore.has_component (s : ComponentStore) (entity_id : Nat)
    (component_type : CKind) : Bool :=
  match dfind s.component_stores component_type with
  | none => false
  | some inner => (dfind inner entity_id).isSome

/-- `ComponentStore.get_component`. -/
def ComponentStore.get_component (s : ComponentStore) (entity_id : Nat)
    (component_type : CKind) : Option Cmp :=
  match dfind s.component_stores component_type with
  | none => none
  | some inner => dfind inner entity_id

/-- `ComponentStore.get_entities_with_components`: intersection query over
the listed kinds, empty for an empty kind list, short-circuiting to empty
when a kind has no store. -/
def ComponentStore.get_entities_with_components (s : ComponentStore)
    (component_types : List CKind) : List Nat :=
  match component_types with
  | [] => []
  | k₀ :: rest =>
      match dfind s.component_stores k₀ with
      | none => []
      | some inner =>
          rest.foldl
            (fun result ck =>
              match dfind s.component_stores ck with
              | none => []
              | some inner' =>
                  result.filter fun e => (dfind inner' e).isSome)
            (dkeys inner)

/-! ## Entity Manager (src/ecs/entity_manager.py) -/

/-- `EntityManager`: id counter, live set, component store, pending-deletion
set. -/
structure EntityManager where
  next_entity_id : Nat
  entities : List Nat
  component_store : ComponentStore
  entities_pending_deletion : List Nat
  deriving DecidableEq, Repr

/-- A fresh manager. -/
def EntityManager.init : EntityManager :=
  ⟨0, [], ComponentStore.init, []⟩

/-- `EntityManager.create_entity`. -/
def EntityManager.create_entity (em : EntityManager) : EntityManager × Nat :=
  let entity_id := em.next_entity_id
  ({ em with next_entity_id := entity_id + 1,
             entities := sinsert em.entities entity_id }, entity_id)

/-- `EntityManager.destroy_entity`: marks for deletion only. -/
def EntityManager.destroy_entity (em : EntityManager) (entity_id : Nat) :
    EntityManager :=
  if entity_id ∈ em.entities then
    { em with entities_pending_deletion :=
        sinsert em.entities_pending_deletion entity_id }
  else em

/-- One step of `cleanup_entities`: purge one pending id.  An uncaught
`KeyError` from `remove_all_components` propagates as `none`. -/
def cleanupStep (em : EntityManager) (entity_id : Nat) : Option EntityManager :=
  if entity_id ∈ em.entities then
    match em.component_store.remove_all_components entity_id with
    | some s =>
        some { em with entities := sremove em.entities entity_id,
                       component_store := s }
    | none => none
  else some em

/-- The `for` loop of `cleanup_entities`, aborted by an uncaught error. -/
def cleanupFold : List Nat → EntityManager → Option EntityManager
  | [], em => some em
  | x :: rest, em =>
      match cleanupStep em x with
      | some em' => cleanupFold rest em'
      | none => none

/-- `EntityManager.cleanup_entities`: purge all pending ids, then clear the
set; a `KeyError` raised while purging propagates as `none`. -/
def EntityManager.cleanup_entities (em : EntityManager) :
    Option EntityManager :=
  match cleanupFold em.entities_pending_deletion em with
  | some em' => some { em' with entities_pending_deletion := [] }
  | none => none

/-- `EntityManager.add_component` (live-set guarded). -/
def EntityManager.add_component (em : EntityManager) (entity_id : Nat)
    (c : Cmp) : EntityManager :=
  if entity_id ∈ em.entities then
    { em with component_store := em.component_store.add_component entity_id c }
  else em

/-- `EntityManager.remove_component` (live-set guarded). -/
def EntityManager.remove_component (em : EntityManager) (entity_id : Nat)
    (component_type : CKind) : EntityManager :=
  if entity_id ∈ em.entities then
    { em with component_store :=
        em.component_store.remove_component entity_id component_type }
  else em

/-- `EntityManager.has_component` (stale ids answer `false`). -/
def EntityManager.has_component (em : EntityManager) (entity_id : Nat)
    (component_type : CKind) : Bool :=
  if entity_id ∈ em.entities then
    em.component_store.has_component entity_id component_type
  else false

/-- `EntityManager.get_component` (stale ids answer `none`). -/
def EntityManager.get_component (em : EntityManager) (entity_id : Nat)
    (component_type : CKind) : Option Cmp :=
  if entity_id ∈ em.entities then
    em.component_store.get_component entity_id component_type
  else none

/-- `EntityManager.get_entities_with_components` (unguarded pass-through). -/
def EntityManager.get_entities_with_components (em : EntityManager)
    (component_types : List CKind) : List Nat :=
  em.component_store.get_entities_with_components component_types

/-- `EntityManager.entity_exists`. -/
def EntityManager.entity_exists (em : EntityManager) (entity_id : Nat) : Bool :=
  decide (entity_id ∈ em.entities)

/-- Typed read of a `Position` through the manager. -/
def EntityManager.getPosition (em : EntityManager) (entity_id : Nat) :
    Option Position :=
  match em.get_component entity_id CKind.position with
  | some (Cmp.position p) => some p
  | _ => none

/-- Typed read of a `Health` through the manager. -/
def EntityManager.getHealth (em : EntityManager) (entity_id : Nat) :
    Option Health :=
  match em.get_component entity_id CKind.health with
  | some (Cmp.health h) => some h
  | _ => none

/-- Typed read of a `CombatStats` through the manager. -/
def EntityManager.getCombatStats (em : EntityManager) (entity_id : Nat) :
    Option CombatStats :=
  match em.get_component entity_id CKind.combatStats with
  | some (Cmp.combatStats c) => some c
  | _ => none

/-- Typed read of an `AIIntent` through the manager. -/
def EntityManager.getAIIntent (em : EntityManager) (entity_id : Nat) :
    Option AIIntent :=
  match em.get_component entity_id CKind.aiIntent with
  | some (Cmp.aiIntent i) => some i
  | _ => none

/-- Typed read of a `TurnState` through the manager. -/
def EntityManager.getTurnState (em : EntityManager) (entity_id : Nat) :
    Option TurnState :=
  match em.get_component entity_id CKind.turnState with
  | some (Cmp.turnState t) => some t
  | _ => none

/-! ## Movement & occupancy (src/systems/movement_system.py) -/

/-- `MovementSystem` state: the occupancy index and the wall set.  Emitted
log messages are pure side channel and are not modelled. -/
structure MovementSystem where
  occupancy_map : List ((Int × Int) × Nat)
  impassable_positions : List (Int × Int)
  deriving DecidableEq, Repr

/-- `MovementSystem._is_valid_move`: the target must not be impassable and
must not be occupied by a different entity. -/
def MovementSystem.is_valid_move (ms : MovementSystem) (entity_id : Nat)
    (x y : Int) : Bool :=
  if (x, y) ∈ ms.impassable_positions then false
  else
    match dfind ms.occupancy_map (x, y) with
    | some occupant => decide (occupant = entity_id)
    | none => true

/-- `MovementSystem.try_move_entity`: validates the target, then updates the
occupancy index (dropping the old entry only if it still points at this
entity) and overwrites the entity's `Position`. -/
def MovementSystem.try_move_entity (ms : MovementSystem) (em : EntityManager)
    (entity_id : Nat) (dx dy : Int) : EntityManager × MovementSystem × Bool :=
  match em.getPosition entity_id with
  | none => (em, ms, false)
  | some position =>
      let new_x := position.x + dx
      let new_y := position.y + dy
      if ms.is_valid_move entity_id new_x new_y then
        let old_pos := (position.x, position.y)
        let new_pos := (new_x, new_y)
        let occ :=
          if dfind ms.occupancy_map old_pos = some entity_id then
            derase ms.occupancy_map old_pos
          else ms.occupancy_map
        let em' := em.add_component entity_id (Cmp.position ⟨new_x, new_y⟩)
        (em', { ms with occupancy_map := dinsert occ new_pos entity_id }, true)
      else (em, ms, false)

/-- The unit step `MovementSystem.update` computes toward a move target:
the sign of the delta on each axis, computed independently. -/
def moveStepToward (position : Position) (target : Int × Int) : Int × Int :=
  let dx : Int :=
    if target.1 > position.x then 1 else if target.1 < position.x then -1 else 0
  let dy : Int :=
    if target.2 > position.y then 1 else if target.2 < position.y then -1 else 0
  (dx, dy)

/-- One entity's entry in the occupancy rebuild:
`occupancy[(p.x, p.y)] = entity_id`. -/
def occInsert (em : EntityManager) (occ : List ((Int × Int) × Nat))
    (entity_id : Nat) : List ((Int × Int) × Nat) :=
  match em.getPosition entity_id with
  | some p => dinsert occ (p.x, p.y) entity_id
  | none => occ

/-- `MovementSystem._rebuild_occupancy_map`: fresh position→entity dict over
every entity currently holding a `Position`. -/
def rebuildOccupancy (em : EntityManager) : List ((Int × Int) × Nat) :=
  (em.get_entities_with_components [CKind.position]).foldl (occInsert em) []

/-- The per-entity body of `MovementSystem.update`: for a `Move` intent with
a target, step toward it via `try_move_entity` and clear the intent
regardless of the result. -/
def movementProcessEntity (st : EntityManager × MovementSystem)
    (entity_id : Nat) : EntityManager × MovementSystem :=
  let em := st.1
  let ms := st.2
  match em.getAIIntent entity_id with
  | none => (em, ms)
  | some ai_intent =>
      if ai_intent.action_type = ActionType.move ∧
          ai_intent.target_position.isSome then
        match em.getPosition entity_id, ai_intent.target_position with
        | some position, some target =>
            let step := moveStepToward position target
            let r := ms.try_move_entity em entity_id step.1 step.2
            (r.1.add_component entity_id (Cmp.aiIntent ai_intent.clear_intent),
              r.2.1)
        | _, _ => (em, ms)
      else (em, ms)

/-- `MovementSystem.update`: rebuild occupancy, then process every entity
holding both `Position` and `AIIntent`. -/
def MovementSystem.update (ms : MovementSystem) (em : EntityManager) :
    EntityManager × MovementSystem :=
  let ms' := { ms with occupancy_map := rebuildOccupancy em }
  let ai_entities := em.get_entities_with_components [CKind.position, CKind.aiIntent]
  ai_entities.foldl movementProcessEntity (em, ms')

/-! ## Combat (src/systems/combat_system.py) -/

/-- `CombatSystem._calculate_hit_chance`: base 60%, ±2% per point, clamped
to [0.10, 0.95].  Python floats are modelled as exact rationals. -/
def calculate_hit_chance (attack defense : Int) : ℚ :=
  Max.max 0.1 (Min.min 0.95 (0.6 + (attack : ℚ) * 0.02 - (defense : ℚ) * 0.02))

/-- A combat notification delivered to the registered listeners. -/
inductive CEvent where
  | hit (attacker_id defender_id : Nat) (damage : Int)
  | miss (attacker_id defender_id : Nat)
  | death (entity_id : Nat) (killer_id : Nat)
  deriving DecidableEq, Repr

/-- `CombatSystem.perform_attack`: requires both entities to exist and the
attacker `CombatStats`, defender `CombatStats` and `Health` to be present;
draws one roll, hits iff `roll ≤ hit_chance`; on a hit applies damage and
fires the hit notification, plus a death notification if this damage
killed the defender; on a miss fires a miss notification. -/
def perform_attack (em : EntityManager) (attacker_id defender_id : Nat)
    (roll : ℚ) : EntityManager × List CEvent × Bool :=
  if em.entity_exists attacker_id && em.entity_exists defender_id then
    match em.getCombatStats attacker_id, em.getCombatStats defender_id,
        em.getHealth defender_id with
    | some attacker_stats, some defender_stats, some defender_health =>
        let hit_chance :=
          calculate_hit_chance attacker_stats.attack defender_stats.defense
        if roll ≤ hit_chance then
          let damage := attacker_stats.calculate_damage defender_stats.defense
          let r := defender_health.take_damage damage
          let em' := em.add_component defender_id (Cmp.health r.1)
          let events :=
            if r.2 then
              [CEvent.hit attacker_id defender_id damage,
               CEvent.death defender_id attacker_id]
            else [CEvent.hit attacker_id defender_id damage]
          (em', events, true)
        else (em, [CEvent.miss attacker_id defender_id], false)
    | _, _, _ => (em, [], false)
  else (em, [], false)

/-- `CombatSystem.can_attack`: both exist, attacker has `CombatStats`,
defender has `Health` and is alive, both have `Position`, Manhattan
distance exactly 1.  The attacker's own aliveness is never consulted. -/
def can_attack (em : EntityManager) (attacker_id defender_id : Nat) : Bool :=
  if em.entity_exists attacker_id && em.entity_exists defender_id then
    match em.getCombatStats attacker_id, em.getHealth defender_id with
    | some _, some defender_health =>
        if defender_health.is_alive then
          match em.getPosition attacker_id, em.getPosition defender_id with
          | some attacker_pos, some defender_pos =>
              decide (|attacker_pos.x - defender_pos.x| +
                |attacker_pos.y - defender_pos.y| = 1)
          | _, _ => false
        else false
    | _, _ => false
  else false

/-- The per-entity body of `CombatSystem.update`: entities with a
`TurnState` that can act and an `Attack` intent with a target perform the
attack, clear the intent, and lose `can_act`. -/
def combatProcessEntity (rng : Nat → ℚ)
    (st : EntityManager × List CEvent × Nat) (entity_id : Nat) :
    EntityManager × List CEvent × Nat :=
  let em := st.1
  let events := st.2.1
  let idx := st.2.2
  match em.getTurnState entity_id with
  | none => st
  | some turn_state =>
      if turn_state.can_act then
        match em.getAIIntent entity_id with
        | none => st
        | some ai_intent =>
            if ai_intent.action_type = ActionType.attack ∧
                ai_intent.target_entity.isSome then
              match ai_intent.target_entity with
              | some target_id =>
                  let r := perform_attack em entity_id target_id (rng idx)
                  let em' :=
                    (r.1.add_component entity_id
                        (Cmp.aiIntent ai_intent.clear_intent)).add_component
                      entity_id (Cmp.turnState ⟨false⟩)
                  (em', events ++ r.2.1, idx + 1)
              | none => st
            else st
      else st

/-- `CombatSystem.update` over all entities with `AIIntent` and `Position`. -/
def combat_update (em : EntityManager) (rng : Nat → ℚ) (idx : Nat) :
    EntityManager × List CEvent × Nat :=
  (em.get_entities_with_components [CKind.aiIntent, CKind.position]).foldl
    (combatProcessEntity rng) (em, [], idx)

/-! ## AI decision engine (src/systems/ai_system.py) -/

/-- `AISystem` state: detection range and the (start, goal)-keyed path
cache, which is never evicted. -/
structure AISystem where
  detection_range : Int
  path_cache : List (((Int × Int) × (Int × Int)) × List (Int × Int))
  deriving DecidableEq, Repr

/-- Manhattan distance (`AISystem._manhattan_distance`). -/
def manhattan (p q : Int × Int) : Int :=
  |p.1 - q.1| + |p.2 - q.2|

/-- One iteration body of `AISystem._find_path`: move one unit on each axis
toward the goal, then zero one axis by a uniform 50% draw whenever both
axes changed ("avoid moving diagonally"). -/
def greedyStep (current goal : Int × Int) (rng : Nat → ℚ) (idx : Nat) :
    (Int × Int) × Nat :=
  let x := current.1
  let y := current.2
  let next_x := if x < goal.1 then x + 1 else if x > goal.1 then x - 1 else x
  let next_y := if y < goal.2 then y + 1 else if y > goal.2 then y - 1 else y
  if next_x ≠ x ∧ next_y ≠ y then
    if rng idx < 0.5 then ((next_x, y), idx + 1) else ((x, next_y), idx + 1)
  else ((next_x, next_y), idx)

/-- The `for _ in range(max_steps)` loop of `AISystem._find_path`: break on
reaching the goal, otherwise take a greedy step and append it. -/
def findPathLoop (goal : Int × Int) (rng : Nat → ℚ) :
    Nat → Int × Int → List (Int × Int) → Nat → List (Int × Int) × Nat
  | 0, _, path, idx => (path, idx)
  | fuel + 1, current, path, idx =>
      if current = goal then (path, idx)
      else
        let s := greedyStep current goal rng idx
        let path' := path ++ [s.1]
        if s.1 = goal then (path', s.2)
        else findPathLoop goal rng fuel s.1 path' s.2

/-- `AISystem._find_path`: answer from the cache when the exact
`(start, goal)` pair is present; otherwise run the greedy stepper from
`[start]` and cache the result. -/
def AISystem.find_path (ai : AISystem) (start goal : Int × Int)
    (max_steps : Nat) (rng : Nat → ℚ) (idx : Nat) :
    List (Int × Int) × AISystem × Nat :=
  match dfind ai.path_cache (start, goal) with
  | some path => (path, ai, idx)
  | none =>
      let r := findPathLoop goal rng max_steps start [start] idx
      (r.1, { ai with path_cache := dinsert ai.path_cache (start, goal) r.1 },
        r.2)

/-- The per-entity body of `AISystem.update`: skip dead entities, attack at
distance ≤ 1, chase within detection range, otherwise wander (30% random
orthogonal step, zeroing one axis of a random diagonal, else wait). -/
def aiProcessEntity (player_id : Nat) (player_pos : Position) (rng : Nat → ℚ)
    (st : EntityManager × AISystem × Nat) (entity_id : Nat) :
    EntityManager × AISystem × Nat :=
  let em := st.1
  let ai := st.2.1
  let idx := st.2.2
  match em.getHealth entity_id with
  | none => st
  | some health =>
      if health.is_alive then
        match em.getAIIntent entity_id, em.getPosition entity_id with
        | some ai_intent, some position =>
            let distance :=
              manhattan (position.x, position.y) (player_pos.x, player_pos.y)
            if distance ≤ 1 then
              if em.has_component entity_id CKind.combatStats then
                (em.add_component entity_id
                    (Cmp.aiIntent (ai_intent.set_attack_intent player_id)),
                  ai, idx)
              else (em, ai, idx)
            else if distance ≤ ai.detection_range then
              let r := ai.find_path (position.x, position.y)
                (player_pos.x, player_pos.y) 20 rng idx
              if 1 < r.1.length then
                match r.1.get? 1 with
                | some next_pos =>
                    (em.add_component entity_id
                        (Cmp.aiIntent
                          (ai_intent.set_move_intent next_pos.1 next_pos.2)),
                      r.2.1, r.2.2)
                | none => (em, r.2.1, r.2.2)
              else
                let step := moveStepToward position (player_pos.x, player_pos.y)
                (em.add_component entity_id
                    (Cmp.aiIntent (ai_intent.set_move_intent
                      (position.x + step.1) (position.y + step.2))),
                  r.2.1, r.2.2)
            else
              if rng idx < 0.3 then
                let draw3 : ℚ → Int := fun v =>
                  if v < 1 / 3 then -1 else if v < 2 / 3 then 0 else 1
                let dx := draw3 (rng (idx + 1))
                let dy := draw3 (rng (idx + 2))
                let pick : Int × Int × Nat :=
                  if dx ≠ 0 ∧ dy ≠ 0 then
                    if rng (idx + 3) < 0.5 then (0, dy, idx + 4)
                    else (dx, 0, idx + 4)
                  else (dx, dy, idx + 3)
                (em.add_component entity_id
                    (Cmp.aiIntent (ai_intent.set_move_intent
                      (position.x + pick.1) (position.y + pick.2.1))),
                  ai, pick.2.2)
              else
                (em.add_component entity_id
                    (Cmp.aiIntent ai_intent.set_wait_intent), ai, idx + 1)
        | _, _ => st
      else st

/-- `AISystem.update`: find the player, then decide for every living entity
holding `AIIntent` and `Position`. -/
def ai_update (em : EntityManager) (ai : AISystem) (rng : Nat → ℚ)
    (idx : Nat) : EntityManager × AISystem × Nat :=
  match em.get_entities_with_components [CKind.playerTag, CKind.position] with
  | [] => (em, ai, idx)
  | player_id :: _ =>
      match em.getPosition player_id with
      | none => (em, ai, idx)
      | some player_pos =>
          (em.get_entities_with_components [CKind.aiIntent, CKind.position]).foldl
            (aiProcessEntity player_id player_pos rng) (em, ai, idx)

/-! ## Turn orchestration (src/systems/turn_scheduler_system.py,
src/systems/input_system.py, src/game/game_loop.py) -/

/-- `GameState` of the turn scheduler. -/
inductive GameState where
  | active
  | game_over
  deriving DecidableEq, Repr

/-- `TurnSchedulerSystem` state: game state and turn counter. -/
structure TurnScheduler where
  game_state : GameState
  turn_number : Nat
  deriving DecidableEq, Repr

/-- `TurnSchedulerSystem.advance_turn`. -/
def TurnScheduler.advance_turn (ts : TurnScheduler) : TurnScheduler :=
  { ts with turn_number := ts.turn_number + 1 }

/-- `TurnSchedulerSystem.set_game_over`. -/
def TurnScheduler.set_game_over (ts : TurnScheduler) : TurnScheduler :=
  { ts with game_state := GameState.game_over }

/-- The named input actions the input boundary can deliver. -/
inductive InputAction where
  | move_up
  | move_down
  | move_left
  | move_right
  | wait
  | attack
  | quit
  | inventory
  | pickup
  | use_item
  | examine
  | toggle_fullscreen
  deriving DecidableEq, Repr

/-- `GameLoop._handle_attack_action`: scan the four orthogonal neighbors in
order; on the first occupied one (Python truthiness: entity id 0 is falsy)
that is attackable, perform the attack. -/
def attackScan (em : EntityManager) (ms : MovementSystem) (rng : Nat → ℚ)
    (idx : Nat) (player_id : Nat) (player_pos : Position) :
    List (Int × Int) → EntityManager × List CEvent × Nat × Bool
  | [] => (em, [], idx, false)
  | (dx, dy) :: rest =>
      let target_x := player_pos.x + dx
      let target_y := player_pos.y + dy
      match dfind ms.occupancy_map (target_x, target_y) with
      | some target_id =>
          if target_id ≠ 0 ∧ target_id ≠ player_id then
            if can_attack em player_id target_id then
              let r := perform_attack em player_id target_id (rng idx)
              (r.1, r.2.1, idx + 1, true)
            else attackScan em ms rng idx player_id player_pos rest
          else attackScan em ms rng idx player_id player_pos rest
      | none => attackScan em ms rng idx player_id player_pos rest

/-- `InputSystem.update` plus the callbacks `GameLoop` registers: dispatch
the delivered action to its handler; `action_taken` is set for every mapped
action regardless of the handler's result (actions with no registered
callback still consume the turn). -/
def input_update (em : EntityManager) (ms : MovementSystem) (rng : Nat → ℚ)
    (idx : Nat) (event : Option InputAction) :
    EntityManager × MovementSystem × List CEvent × Nat × Bool :=
  match em.get_entities_with_components [CKind.playerTag, CKind.position] with
  | [] => (em, ms, [], idx, false)
  | player_id :: _ =>
      match event with
      | none => (em, ms, [], idx, false)
      | some action =>
          match action with
          | .move_up =>
              let r := ms.try_move_entity em player_id 0 (-1)
              (r.1, r.2.1, [], idx, true)
          | .move_down =>
              let r := ms.try_move_entity em player_id 0 1
              (r.1, r.2.1, [], idx, true)
          | .move_left =>
              let r := ms.try_move_entity em player_id (-1) 0
              (r.1, r.2.1, [], idx, true)
          | .move_right =>
              let r := ms.try_move_entity em player_id 1 0
              (r.1, r.2.1, [], idx, true)
          | .wait => (em, ms, [], idx, true)
          | .attack =>
              match em.getPosition player_id with
              | none => (em, ms, [], idx, true)
              | some player_pos =>
                  let r := attackScan em ms rng idx player_id player_pos
                    [(0, -1), (0, 1), (-1, 0), (1, 0)]
                  (r.1, ms, r.2.1, r.2.2.1, true)
          | _ => (em, ms, [], idx, true)

/-- The whole orchestrator state. -/
structure GameLoop where
  em : EntityManager
  movement_system : MovementSystem
  ai_system : AISystem
  scheduler : TurnScheduler
  rng_index : Nat
  deriving DecidableEq, Repr

/-- Whether a death notification in this turn's events concerns the player
(`GameLoop._handle_entity_death` checks `PlayerTag` and sets game over). -/
def playerDied (em : EntityManager) (events : List CEvent) : Bool :=
  events.any fun ev =>
    match ev with
    | CEvent.death v _ => em.has_component v CKind.playerTag
    | _ => false

/-- `GameLoop.update`: input first; if an action was taken, run AI, then
movement, then combat, then entity cleanup, then advance the turn counter —
with no check of the game state anywhere on this path.  The death listener
fires during combat and flips the scheduler to game over.  A `KeyError`
raised inside cleanup aborts the update before the counter increments,
modelled as `none`. -/
def GameLoop.update (g : GameLoop) (event : Option InputAction)
    (rng : Nat → ℚ) : Option GameLoop :=
  let ri := input_update g.em g.movement_system rng g.rng_index event
  let em1 := ri.1
  let ms1 := ri.2.1
  let evs0 := ri.2.2.1
  let idx1 := ri.2.2.2.1
  let action_taken := ri.2.2.2.2
  if action_taken then
    let ra := ai_update em1 g.ai_system rng idx1
    let rm := ms1.update ra.1
    let rc := combat_update rm.1 rng ra.2.2
    let scheduler1 :=
      if playerDied rc.1 (evs0 ++ rc.2.1) then g.scheduler.set_game_over
      else g.scheduler
    match rc.1.cleanup_entities with
    | some em_clean =>
        some { em := em_clean, movement_system := rm.2, ai_system := ra.2.1,
               scheduler := scheduler1.advance_turn, rng_index := rc.2.2 }
    | none => none
  else
    some { g with em := em1, movement_system := ms1, rng_index := idx1 }

/-! ## Spec-side predicates and concrete scenario states -/

/-- Whether `e` has a `Health` and is alive (spec wording "is alive"). -/
def aliveInB (em : EntityManager) (e : Nat) : Bool :=
  match em.getHealth e with
  | some h => h.is_alive
  | none => false

/-- The claim's stated condition for `canAttack`: both exist, both alive,
attacker has `CombatStats`, defender has `Health`, both positioned,
Manhattan distance exactly 1. -/
def canAttackClaimB (em : EntityManager) (a d : Nat) : Bool :=
  em.entity_exists a && em.entity_exists d &&
  aliveInB em a && aliveInB em d &&
  (em.getCombatStats a).isSome && (em.getHealth d).isSome &&
  (match em.getPosition a, em.getPosition d with
   | some pa, some pd => decide (|pa.x - pd.x| + |pa.y - pd.y| = 1)
   | _, _ => false)

/-- The amended condition: as the claim, but only the defender's aliveness
is required (the code never consults the attacker's `Health`). -/
def canAttackSpecB (em : EntityManager) (a d : Nat) : Bool :=
  em.entity_exists a && em.entity_exists d &&
  (em.getCombatStats a).isSome &&
  aliveInB em d &&
  (match em.getPosition a, em.getPosition d with
   | some pa, some pd => decide (|pa.x - pd.x| + |pa.y - pd.y| = 1)
   | _, _ => false)

/-- Two grid positions one unit orthogonal step apart. -/
def orthoStep (p q : Int × Int) : Prop :=
  (q.1 - p.1).natAbs + (q.2 - p.2).natAbs = 1

instance (p q : Int × Int) : Decidable (orthoStep p q) := by
  unfold orthoStep; infer_instance

/-- Scenario state for C3: one entity at (2,2), a wall at (3,2). -/
def emC3 : EntityManager :=
  let r := EntityManager.init.create_entity
  r.1.add_component r.2 (Cmp.position ⟨2, 2⟩)

/-- Movement state for C3. -/
def msC3 : MovementSystem :=
  ⟨[], [(3, 2)]⟩

/-- Scenario state for C6: entity 0 is a dead attacker with `CombatStats`
and `Position`; entity 1 is a living adjacent defender. -/
def emC6 : EntityManager :=
  let r0 := EntityManager.init.create_entity
  let em0 := ((r0.1.add_component r0.2 (Cmp.combatStats ⟨5, 2, 5⟩)).add_component
    r0.2 (Cmp.position ⟨0, 0⟩)).add_component r0.2 (Cmp.health ⟨0, 30, true⟩)
  let r1 := em0.create_entity
  ((r1.1.add_component r1.2 (Cmp.health (Health.init 10 10))).add_component
    r1.2 (Cmp.position ⟨0, 1⟩)).add_component r1.2 (Cmp.combatStats ⟨3, 1, 3⟩)

/-- Scenario state for C8: one entity at (0,0) with a `Move` intent whose
target (1,1) is diagonally offset. -/
def emC8 : EntityManager :=
  let r := EntityManager.init.create_entity
  (r.1.add_component r.2 (Cmp.position ⟨0, 0⟩)).add_component r.2
    (Cmp.aiIntent (AIIntent.init.set_move_intent 1 1))

/-- Movement state for C8: no walls, empty occupancy. -/
def msC8 : MovementSystem :=
  ⟨[], []⟩

/-- Scenario state for C10: attacker 0 (player profile) and defender 1
(goblin profile) eight tiles apart. -/
def emC10 : EntityManager :=
  let r0 := EntityManager.init.create_entity
  let em0 := (r0.1.add_component r0.2 (Cmp.combatStats ⟨5, 2, 5⟩)).add_component
    r0.2 (Cmp.position ⟨0, 0⟩)
  let r1 := em0.create_entity
  ((r1.1.add_component r1.2 (Cmp.combatStats ⟨3, 1, 3⟩)).add_component
    r1.2 (Cmp.health (Health.init 10 10))).add_component r1.2
    (Cmp.position ⟨7, 1⟩)

/-- A fresh AI system with the default detection range and empty cache. -/
def aiFresh : AISystem :=
  ⟨8, []⟩

/-- A random stream that always draws 1/2 (so `r < 0.5` is false). -/
def rngHalf : Nat → ℚ :=
  fun _ => 1 / 2

/-- Scenario state for C2: a player (entity 0) plus entity 1 holding
`Position` and `Health`, marked for deletion but not yet cleaned up. -/
def emC2 : EntityManager :=
  let r0 := EntityManager.init.create_entity
  let em0 := ((r0.1.add_component r0.2 Cmp.playerTag).add_component r0.2
    (Cmp.position ⟨1, 1⟩)).add_component r0.2 (Cmp.health (Health.init 30 30))
  let r1 := em0.create_entity
  let em1 := (r1.1.add_component r1.2 (Cmp.position ⟨4, 4⟩)).add_component
    r1.2 (Cmp.health (Health.init 10 10))
  em1.destroy_entity r1.2

/-- The C2 state wrapped in a full game state, turn 0, active. -/
def gC2 : GameLoop :=
  { em := emC2, movement_system := ⟨[], []⟩, ai_system := ⟨8, []⟩,
    scheduler := ⟨GameState.active, 0⟩, rng_index := 0 }

/-- Scenario state for C5: a game already in `game_over` (dead player still
present) at turn 7. -/
def gC5 : GameLoop :=
  let r := EntityManager.init.create_entity
  let em := ((r.1.add_component r.2 Cmp.playerTag).add_component r.2
    (Cmp.position ⟨1, 1⟩)).add_component r.2 (Cmp.health ⟨0, 30, true⟩)
  { em := em, movement_system := ⟨[], []⟩, ai_system := aiFresh,
    scheduler := ⟨GameState.game_over, 7⟩, rng_index := 0 }

/-! ## Theorems -/

theorem dfind_dinsert_self {α β : Type} [DecidableEq α]
    (d : List (α × β)) (k : α) (v : β) : dfind (dinsert d k v) k = some v := by
  induction d with
  | nil => simp [dinsert, dfind]
  | cons p rest ih =>
      obtain ⟨k', v'⟩ := p
      by_cases h : k' = k
      · simp [dinsert, h, dfind]
      · simp [dinsert, h, dfind, ih]

theorem dfind_dinsert_ne {α β : Type} [DecidableEq α]
    (d : List (α × β)) (k k₀ : α) (v : β) (hne : k₀ ≠ k) :
    dfind (dinsert d k v) k₀ = dfind d k₀ := by
  have hne' : ¬ k = k₀ := fun hc => hne hc.symm
  induction d with
  | nil => simp [dinsert, dfind, hne']
  | cons p rest ih =>
      obtain ⟨k', v'⟩ := p
      by_cases h : k' = k
      · subst h
        simp [dinsert, dfind, hne']
      · simp only [dinsert, if_neg h, dfind]
        by_cases h₀ : k' = k₀
        · simp [h₀]
        · simp [h₀, ih]

theorem dfind_derase_self {α β : Type} [DecidableEq α]
    (d : List (α × β)) (k : α) : dfind (derase d k) k = none := by
  induction d with
  | nil => simp [derase, dfind]
  | cons p rest ih =>
      obtain ⟨k', v'⟩ := p
      by_cases h : k' = k
      · simpa [derase, h] using ih
      · simpa [derase, h, dfind] using ih

theorem dfind_derase_ne {α β : Type} [DecidableEq α]
    (d : List (α × β)) (k k₀ : α) (hne : k₀ ≠ k) :
    dfind (derase d k) k₀ = dfind d k₀ := by
  induction d with
  | nil => simp [derase, dfind]
  | cons p rest ih =>
      obtain ⟨k', v'⟩ := p
      by_cases h : k' = k
      · have h₀ : ¬ k' = k₀ := fun hc => hne (hc ▸ h)
        simp only [derase, if_pos h, dfind, if_neg h₀]
        exact ih
      · simp only [derase, if_neg h, dfind]
        by_cases h₀ : k' = k₀
        · simp [h₀]
        · simp [h₀, ih]

theorem take_damage_current (h : Health) (a : Int) :
    (h.take_damage a).1.current = Max.max 0 (h.current - a) := by
  simp only [Health.take_damage]
  split <;> rfl

theorem take_damage_max (h : Health) (a : Int) :
    (h.take_damage a).1.max = h.max := by
  simp only [Health.take_damage]
  split <;> rfl

theorem take_damage_is_dead (h : Health) (a : Int) :
    (h.take_damage a).1.is_dead = (h.is_dead || decide (h.current ≤ a)) := by
  simp only [Health.take_damage]
  by_cases hd : h.is_dead = true <;> split <;> rename_i hc <;> simp_all

theorem take_damage_flag (h : Health) (a : Int) :
    (h.take_damage a).2 = (!h.is_dead && decide (h.current ≤ a)) := by
  simp only [Health.take_damage]
  by_cases hd : h.is_dead = true <;> split <;> rename_i hc <;> simp_all

theorem take_damage_valid (h : Health) (a : Int)
    (hv : healthValid h) (ha : 0 ≤ a) : healthValid (h.take_damage a).1 := by
  obtain ⟨h0, h1⟩ := hv
  unfold healthValid
  rw [take_damage_current, take_damage_max]
  omega

theorem heal_current (h : Health) (a : Int) :
    (h.heal a).current =
      if h.is_dead then h.current else Min.min h.max (h.current + a) := by
  simp only [Health.heal]
  split <;> simp_all

theorem heal_max (h : Health) (a : Int) : (h.heal a).max = h.max := by
  simp only [Health.heal]
  split <;> rfl

theorem heal_is_dead (h : Health) (a : Int) : (h.heal a).is_dead = h.is_dead := by
  simp only [Health.heal]
  split <;> simp_all

theorem heal_valid (h : Health) (a : Int)
    (hv : healthValid h) (ha : 0 ≤ a) : healthValid (h.heal a) := by
  obtain ⟨h0, h1⟩ := hv
  unfold healthValid
  rw [heal_current, heal_max]
  split <;> omega

theorem applyHOp_valid (h : Health) (op : HOp)
    (hv : healthValid h) (ha : 0 ≤ op.amount) : healthValid (applyHOp h op) := by
  cases op with
  | damage a => exact take_damage_valid h a hv ha
  | heal a => exact heal_valid h a hv ha

theorem applyHOp_dead_mono (h : Health) (op : HOp)
    (hd : h.is_dead = true) : (applyHOp h op).is_dead = true := by
  cases op with
  | damage a => simp [applyHOp, take_damage_is_dead, hd]
  | heal a => simp [applyHOp, heal_is_dead, hd]

theorem runHOps_valid (ops : List HOp) (h : Health)
    (hv : healthValid h) (hnn : ∀ op ∈ ops, 0 ≤ op.amount) :
    healthValid (runHOps h ops) := by
  induction ops generalizing h with
  | nil => exact hv
  | cons op rest ih =>
      exact ih (applyHOp h op)
        (applyHOp_valid h op hv (hnn op (by simp)))
        (fun o ho => hnn o (by simp [ho]))

theorem runHOps_dead_mono (ops : List HOp) (h : Health)
    (hd : h.is_dead = true) : (runHOps h ops).is_dead = true := by
  induction ops generalizing h with
  | nil => exact hd
  | cons op rest ih => exact ih (applyHOp h op) (applyHOp_dead_mono h op hd)

theorem runHOps_take_mono (ops : List HOp) (h : Health) (n m : Nat)
    (hnm : n ≤ m) (hd : (runHOps h (ops.take n)).is_dead = true) :
    (runHOps h (ops.take m)).is_dead = true := by
  induction ops generalizing h n m with
  | nil => simpa [runHOps] using hd
  | cons op rest ih =>
      cases n with
      | zero =>
          cases m with
          | zero => exact hd
          | succ m =>
              simp only [List.take, runHOps, List.foldl] at hd ⊢
              exact runHOps_dead_mono _ _ (applyHOp_dead_mono h op hd)
      | succ n =>
          cases m with
          | zero => omega
          | succ m =>
              simp only [List.take, runHOps, List.foldl] at hd ⊢
              exact ih (applyHOp h op) n m (by omega) hd

/-- Claim C1 counterexample: a `Health` constructed with `0 ≤ current ≤ max`
and touched by no `take_damage` at all (so the claim's preconditions hold)
leaves the invariant `0 ≤ current` broken after a single `heal` with a
negative amount, which the claim leaves unconstrained. -/
theorem heal_negative_breaks_invariant :
    healthValid (Health.init 5 10) ∧
    damageAmountsNonneg [HOp.heal (-6)] ∧
    ¬ healthValid (runHOps (Health.init 5 10) [HOp.heal (-6)]) := by
  decide

/-- Claim C1 (amended: heal amounts must also be non-negative): the invariant
`0 ≤ current ≤ max` holds after every `take_damage` and `heal`; `is_dead`
never transitions back from true (so it flips at most once along a trace);
`take_damage` reports a kill exactly when it flips `is_dead`, and only with
`current = 0`; `heal` never changes `is_dead` and is a no-op on the dead. -/
theorem health_invariant_nonneg_ops (ops : List HOp) (h : Health)
    (hv : healthValid h) (hnn : ∀ op ∈ ops, 0 ≤ op.amount) :
    healthValid (runHOps h ops) ∧
    (∀ n m : Nat, n ≤ m → (runHOps h (ops.take n)).is_dead = true →
      (runHOps h (ops.take m)).is_dead = true) ∧
    (∀ a : Int, ((h.take_damage a).2 = true ↔
      (h.is_dead = false ∧ (h.take_damage a).1.is_dead = true))) ∧
    (∀ a : Int, (h.take_damage a).2 = true → (h.take_damage a).1.current = 0) ∧
    (∀ a : Int, (h.heal a).is_dead = h.is_dead) ∧
    (∀ a : Int, h.is_dead = true → h.heal a = h) := by
  refine ⟨runHOps_valid ops h hv hnn,
    fun n m hnm hd => runHOps_take_mono ops h n m hnm hd, ?_, ?_, ?_, ?_⟩
  · intro a
    rw [take_damage_flag, take_damage_is_dead]
    cases hd : h.is_dead <;> simp
  · intro a hflag
    rw [take_damage_flag] at hflag
    rw [take_damage_current]
    simp only [Bool.and_eq_true, decide_eq_true_eq] at hflag
    omega
  · intro a
    exact heal_is_dead h a
  · intro a hd
    simp [Health.heal, hd]

/-- Witness for C1 at a concrete trace: a goblin-sized Health taking 3
damage then healing 2 keeps the invariant. -/
theorem health_invariant_nonneg_ops_witness :
    healthValid (Health.init 10 10) ∧
    healthValid (runHOps (Health.init 10 10) [HOp.damage 3, HOp.heal 2]) :=
  ⟨by decide,
    (health_invariant_nonneg_ops [HOp.damage 3, HOp.heal 2] (Health.init 10 10)
      (by decide) (by decide)).1⟩

/-- Claim C7 counterexample: at `power = 0`, `defense = -3`, the code deals
2 damage (`-3 // 2 = -2`, flooring toward negative infinity) while the
claimed toward-zero formula gives 1. -/
theorem calculate_damage_not_toward_zero :
    CombatStats.calculate_damage ⟨0, 0, 0⟩ (-3) = 2 ∧
    damageSpecTowardZero 0 (-3) = 1 := by
  decide

/-- Claim C7 (amended: the division floors toward negative infinity, as
Python `//` does): `calculate_damage` equals the floored spec formula for
all integers, and yields at least 1 for non-negative power and defense. -/
theorem calculate_damage_floor_spec (stats : CombatStats) (d : Int) :
    stats.calculate_damage d = damageSpecFloor stats.power d ∧
    (0 ≤ stats.power → 0 ≤ d → 1 ≤ stats.calculate_damage d) := by
  refine ⟨rfl, fun _ _ => le_max_left _ _⟩

/-- Witness for C7 at the goblin profile (power 3, defense 1). -/
theorem calculate_damage_floor_spec_witness :
    CombatStats.calculate_damage ⟨3, 1, 3⟩ 1 = damageSpecFloor 3 1 ∧
    1 ≤ CombatStats.calculate_damage ⟨3, 1, 3⟩ 1 :=
  ⟨(calculate_damage_floor_spec ⟨3, 1, 3⟩ 1).1,
    (calculate_damage_floor_spec ⟨3, 1, 3⟩ 1).2 (by decide) (by decide)⟩

/-! ## Store and manager lemmas -/

theorem store_get_add_self (s : ComponentStore) (e : Nat) (c : Cmp) :
    (s.add_component e c).get_component e c.kind = some c := by
  simp [ComponentStore.add_component, ComponentStore.get_component,
    dfind_dinsert_self]

theorem store_get_add_other_kind (s : ComponentStore) (e e' : Nat) (c : Cmp)
    (ck : CKind) (hk : ck ≠ c.kind) :
    (s.add_component e c).get_component e' ck = s.get_component e' ck := by
  simp [ComponentStore.add_component, ComponentStore.get_component,
    dfind_dinsert_ne _ _ _ _ hk]

theorem store_get_add_other_entity (s : ComponentStore) (e e' : Nat) (c : Cmp)
    (ck : CKind) (he : e' ≠ e) :
    (s.add_component e c).get_component e' ck = s.get_component e' ck := by
  by_cases hk : ck = c.kind
  · subst hk
    simp only [ComponentStore.add_component, ComponentStore.get_component,
      dfind_dinsert_self]
    rw [dfind_dinsert_ne _ _ _ _ he]
    cases hs : dfind s.component_stores c.kind <;> simp [hs, dfind]
  · exact store_get_add_other_kind s e e' c ck hk

theorem EntityManager.add_entities (em : EntityManager) (e : Nat) (c : Cmp) :
    (em.add_component e c).entities = em.entities := by
  unfold EntityManager.add_component
  split <;> rfl

theorem EntityManager.get_add_self (em : EntityManager) (e : Nat) (c : Cmp)
    (he : e ∈ em.entities) :
    (em.add_component e c).get_component e c.kind = some c := by
  simp [EntityManager.add_component, EntityManager.get_component, he,
    store_get_add_self]

theorem getAIIntent_add_aiIntent (em : EntityManager) (e : Nat) (i : AIIntent)
    (he : e ∈ em.entities) :
    (em.add_component e (Cmp.aiIntent i)).getAIIntent e = some i := by
  have h1 : (em.add_component e (Cmp.aiIntent i)).get_component e
      CKind.aiIntent = some (Cmp.aiIntent i) :=
    EntityManager.get_add_self em e (Cmp.aiIntent i) he
  unfold EntityManager.getAIIntent
  rw [h1]

theorem getHealth_add_health (em : EntityManager) (e : Nat) (h : Health)
    (he : e ∈ em.entities) :
    (em.add_component e (Cmp.health h)).getHealth e = some h := by
  have h1 : (em.add_component e (Cmp.health h)).get_component e
      CKind.health = some (Cmp.health h) :=
    EntityManager.get_add_self em e (Cmp.health h) he
  unfold EntityManager.getHealth
  rw [h1]

theorem try_move_entities (ms : MovementSystem) (em : EntityManager)
    (entity_id : Nat) (dx dy : Int) :
    (ms.try_move_entity em entity_id dx dy).1.entities = em.entities := by
  unfold MovementSystem.try_move_entity
  cases hp : em.getPosition entity_id with
  | none => rfl
  | some position =>
      by_cases hv : ms.is_valid_move entity_id (position.x + dx) (position.y + dy)
      · simp [hv, EntityManager.add_entities]
      · simp [hv]

/-! ## Claim C3: moves into blocked targets are rejected without mutation -/

/-- Claim C3: if the entity holds a `Position` and the target tile (current
plus delta) is impassable, or is occupied in the occupancy index by a
different living entity, then `try_move_entity` returns `false` and leaves
the entity manager (hence the entity's `Position`) and the movement system
(hence the occupancy index) completely unchanged. -/
theorem try_move_rejects_blocked (ms : MovementSystem) (em : EntityManager)
    (entity_id : Nat) (position : Position) (dx dy : Int)
    (hp : em.getPosition entity_id = some position)
    (hblock : (position.x + dx, position.y + dy) ∈ ms.impassable_positions ∨
      (∃ other, dfind ms.occupancy_map (position.x + dx, position.y + dy) =
          some other ∧ other ≠ entity_id ∧
        ∃ oh, em.getHealth other = some oh ∧ oh.is_alive = true)) :
    ms.try_move_entity em entity_id dx dy = (em, ms, false) := by
  have hv : ms.is_valid_move entity_id (position.x + dx) (position.y + dy) =
      false := by
    unfold MovementSystem.is_valid_move
    rcases hblock with himp | ⟨other, hocc, hne, _⟩
    · simp [himp]
    · by_cases himp : (position.x + dx, position.y + dy) ∈
        ms.impassable_positions
      · simp [himp]
      · simp [himp, hocc, hne]
  unfold MovementSystem.try_move_entity
  rw [hp]
  simp [hv]

/-- Witness for C3: an entity at (2,2) bumping one step east into a wall. -/
theorem try_move_rejects_blocked_witness :
    emC3.getPosition 0 = some ⟨2, 2⟩ ∧
    msC3.try_move_entity emC3 0 1 0 = (emC3, msC3, false) :=
  ⟨by decide,
    try_move_rejects_blocked msC3 emC3 0 ⟨2, 2⟩ 1 0 (by decide)
      (Or.inl (by decide))⟩

/-! ## Claim C8: the step passed to try_move by the movement update -/

/-- Claim C8 counterexample: an entity at (0,0) whose `Move` intent targets
the diagonal tile (1,1) is stepped with delta (1,1) — a true diagonal — and
the movement update actually moves it to (1,1).  No axis is discarded in
`MovementSystem.update`; the axis-discarding happens only in the AI
system's wander and path code. -/
theorem movement_step_can_be_diagonal :
    moveStepToward ⟨0, 0⟩ (1, 1) = (1, 1) ∧
    (msC8.update emC8).1.getPosition 0 = some ⟨1, 1⟩ := by
  decide

/-- Claim C8 (amended: the step is the sign of the delta computed
independently per axis, so it is a unit step on each axis but may be a
true diagonal when the target is diagonally offset): the movement update's
per-entity processing steps by exactly the per-axis delta signs and clears
the `Move` intent regardless of whether the move succeeded. -/
theorem movement_step_sign_and_clear (em : EntityManager) (ms : MovementSystem)
    (entity_id : Nat) (ai_intent : AIIntent) (position : Position)
    (target : Int × Int)
    (hi : em.getAIIntent entity_id = some ai_intent)
    (hmove : ai_intent.action_type = ActionType.move)
    (ht : ai_intent.target_position = some target)
    (hp : em.getPosition entity_id = some position)
    (hex : entity_id ∈ em.entities) :
    moveStepToward position target =
      (Int.sign (target.1 - position.x), Int.sign (target.2 - position.y)) ∧
    |(moveStepToward position target).1| ≤ 1 ∧
    |(moveStepToward position target).2| ≤ 1 ∧
    (movementProcessEntity (em, ms) entity_id).1.getAIIntent entity_id =
      some ai_intent.clear_intent := by
  have hsign : ∀ a b : Int,
      (if a > b then (1 : Int) else if a < b then -1 else 0) =
        Int.sign (a - b) := by
    intro a b
    rcases lt_trichotomy a b with h | h | h
    · rw [if_neg (by omega), if_pos h, Int.sign_eq_neg_one_iff_neg.2 (by omega)]
    · subst h
      simp
    · rw [if_pos h]
      exact (Int.sign_eq_one_iff_pos.2 (by omega)).symm
  have habs : ∀ z : Int, |Int.sign z| ≤ 1 := by
    intro z
    rcases lt_trichotomy z 0 with h | h | h
    · rw [Int.sign_eq_neg_one_iff_neg.2 h]; decide
    · subst h; decide
    · rw [Int.sign_eq_one_iff_pos.2 h]; decide
  have hstep : moveStepToward position target =
      (Int.sign (target.1 - position.x), Int.sign (target.2 - position.y)) := by
    unfold moveStepToward
    simp only [Prod.mk.injEq]
    exact ⟨hsign target.1 position.x, hsign target.2 position.y⟩
  refine ⟨hstep, by rw [hstep]; exact habs _, by rw [hstep]; exact habs _, ?_⟩
  have hex' : ∀ dx dy : Int, entity_id ∈
      ((ms.try_move_entity em entity_id dx dy).1).entities := by
    intro dx dy
    rw [try_move_entities]
    exact hex
  simp only [movementProcessEntity, hi, hmove, ht, hp, Option.isSome_some,
    and_self, if_true, true_and, and_true, reduceIte]
  exact getAIIntent_add_aiIntent _ entity_id ai_intent.clear_intent (hex' _ _)

/-- Witness for C8 at a concrete entity with an eastward move intent. -/
theorem movement_step_sign_and_clear_witness :
    moveStepToward ⟨0, 0⟩ (1, 1) = (Int.sign 1, Int.sign 1) ∧
    (movementProcessEntity (emC8, msC8) 0).1.getAIIntent 0 =
      some (AIIntent.init.set_move_intent 1 1).clear_intent := by
  have h := movement_step_sign_and_clear emC8 msC8 0
    (AIIntent.init.set_move_intent 1 1) ⟨0, 0⟩ (1, 1)
    (by decide) (by decide) (by decide) (by decide) (by decide)
  exact ⟨h.1, h.2.2.2⟩

/-! ## Claim C6: canAttack -/

/-- Claim C6 counterexample: a dead attacker (entity 0) holding
`CombatStats` and `Position` next to a living defender (entity 1) — the
code answers `true` although the claim's condition ("both are alive")
answers `false`: the attacker's aliveness is never checked. -/
theorem can_attack_ignores_attacker_alive :
    can_attack emC6 0 1 = true ∧ canAttackClaimB emC6 0 1 = false := by
  decide

/-- Claim C6 (amended: only the defender's aliveness is required; the
attacker's `Health` is never consulted): `can_attack` answers true exactly
when both entities exist, the attacker has `CombatStats`, the defender has
`Health` and is alive, both have `Position`, and the Manhattan distance is
exactly 1. -/
theorem can_attack_iff_spec (em : EntityManager) (a d : Nat) :
    can_attack em a d = canAttackSpecB em a d := by
  cases hea : em.entity_exists a with
  | false => simp [can_attack, canAttackSpecB, hea]
  | true =>
    cases hed : em.entity_exists d with
    | false => simp [can_attack, canAttackSpecB, hea, hed]
    | true =>
      cases hcs : em.getCombatStats a with
      | none => simp [can_attack, canAttackSpecB, hea, hed, hcs]
      | some cs =>
        cases hh : em.getHealth d with
        | none =>
            simp [can_attack, canAttackSpecB, aliveInB, hea, hed, hcs, hh]
        | some dh =>
          cases hal : dh.is_alive with
          | false =>
              simp [can_attack, canAttackSpecB, aliveInB, hea, hed, hcs, hh,
                hal]
          | true =>
              simp [can_attack, canAttackSpecB, aliveInB, hea, hed, hcs, hh,
                hal]

/-! ## Claim C4: the occupancy rebuild -/

theorem dinsert_not_mem {α β : Type} [DecidableEq α]
    (d : List (α × β)) (k : α) (v : β) (h : k ∉ dkeys d) :
    dinsert d k v = d ++ [(k, v)] := by
  induction d with
  | nil => rfl
  | cons p rest ih =>
      obtain ⟨k', v'⟩ := p
      have hne : ¬ k' = k := by
        intro hc
        exact h (by simp [dkeys, hc])
      have hrest : k ∉ dkeys rest := fun hc => h (by simp [dkeys] at hc ⊢; tauto)
      simp [dinsert, hne, ih hrest]

theorem occFold_exact (em : EntityManager) (l : List Nat) :
    ∀ acc : List ((Int × Int) × Nat),
    l.Nodup →
    (∀ e ∈ l, (em.getPosition e).isSome = true) →
    (∀ e₁ ∈ l, ∀ e₂ ∈ l, e₁ ≠ e₂ → em.getPosition e₁ ≠ em.getPosition e₂) →
    (∀ e ∈ l, ∀ p : Position, em.getPosition e = some p →
      (p.x, p.y) ∉ dkeys acc) →
    (dkeys acc).Nodup →
    (l.foldl (occInsert em) acc).length = acc.length + l.length ∧
    (dkeys (l.foldl (occInsert em) acc)).Nodup := by
  induction l with
  | nil => intro acc _ _ _ _ hka; exact ⟨by simp, hka⟩
  | cons e rest ih =>
      intro acc hnd hty hinj hdisj hka
      obtain ⟨p, hp⟩ : ∃ p, em.getPosition e = some p := by
        have := hty e (by simp)
        cases hpe : em.getPosition e with
        | none => rw [hpe] at this; simp at this
        | some q => exact ⟨q, rfl⟩
      have hkey : (p.x, p.y) ∉ dkeys acc := hdisj e (by simp) p hp
      have hstep : occInsert em acc e = acc ++ [((p.x, p.y), e)] := by
        simp [occInsert, hp, dinsert_not_mem _ _ _ hkey]
      have hkeys' : dkeys (acc ++ [((p.x, p.y), e)]) =
          dkeys acc ++ [(p.x, p.y)] := by
        simp [dkeys]
      have hnodup' : (dkeys (acc ++ [((p.x, p.y), e)])).Nodup := by
        rw [hkeys']
        simp [List.nodup_append, hka, hkey]
      have hne : e ∉ rest := (List.nodup_cons.1 hnd).1
      have h := ih (acc ++ [((p.x, p.y), e)]) (List.nodup_cons.1 hnd).2
        (fun e' he' => hty e' (by simp [he']))
        (fun e₁ h₁ e₂ h₂ hne' => hinj e₁ (by simp [h₁]) e₂ (by simp [h₂]) hne')
        (by
          intro e' he' p' hp' hc
          rw [hkeys'] at hc
          rcases List.mem_append.1 hc with hc | hc
          · exact hdisj e' (by simp [he']) p' hp' hc
          · have hee : e' ≠ e := fun hc' => hne (hc' ▸ he')
            have hpp : em.getPosition e' ≠ em.getPosition e :=
              hinj e' (by simp [he']) e (by simp) hee
            rw [hp', hp] at hpp
            simp at hc
            obtain ⟨hc1, hc2⟩ := hc
            apply hpp
            cases p with
            | mk px py =>
                cases p' with
                | mk px' py' => simp_all)
        hnodup'
      refine ⟨?_, ?_⟩
      · have := h.1
        simp only [List.foldl_cons, hstep] at this ⊢
        rw [this]
        simp
        omega
      · have := h.2
        simp only [List.foldl_cons, hstep] at this ⊢
        exact this

/-- Claim C4: right after the per-turn occupancy rebuild, assuming the
entities holding `Position` are duplicate-free, all carry a well-typed
`Position`, and no two of them report the same position, the occupancy
index holds exactly one entry per entity holding a `Position` (so exactly
as many entries as such entities) and its keys — the occupied tiles — are
pairwise distinct, i.e. each occupied tile maps to exactly one entity. -/
theorem occupancy_rebuild_exact (em : EntityManager)
    (hnd : (em.get_entities_with_components [CKind.position]).Nodup)
    (hty : ∀ e ∈ em.get_entities_with_components [CKind.position],
      (em.getPosition e).isSome = true)
    (hinj : ∀ e₁ ∈ em.get_entities_with_components [CKind.position],
      ∀ e₂ ∈ em.get_entities_with_components [CKind.position],
      e₁ ≠ e₂ → em.getPosition e₁ ≠ em.getPosition e₂) :
    (rebuildOccupancy em).length =
      (em.get_entities_with_components [CKind.position]).length ∧
    (dkeys (rebuildOccupancy em)).Nodup := by
  have h := occFold_exact em (em.get_entities_with_components [CKind.position])
    [] hnd hty hinj (by intro e _ p _ hc; simp [dkeys] at hc) (by simp [dkeys])
  unfold rebuildOccupancy
  exact ⟨by rw [h.1]; simp, h.2⟩

/-- Witness for C4 on a two-entity state with distinct positions. -/
theorem occupancy_rebuild_exact_witness :
    (rebuildOccupancy emC6).length =
      (emC6.get_entities_with_components [CKind.position]).length ∧
    (dkeys (rebuildOccupancy emC6)).Nodup :=
  occupancy_rebuild_exact emC6 (by decide) (by decide) (by decide)

/-! ## Claim C2: deferred destruction and cleanup lemmas -/

theorem mem_sinsert_self {α : Type} [DecidableEq α] (l : List α) (x : α) :
    x ∈ sinsert l x := by
  unfold sinsert
  split
  · assumption
  · simp

theorem sinsert_idem {α : Type} [DecidableEq α] (l : List α) (x : α) :
    sinsert (sinsert l x) x = sinsert l x := by
  unfold sinsert
  by_cases h : x ∈ l
  · simp [h]
  · simp [h]

theorem destroy_entities (em : EntityManager) (entity_id : Nat) :
    (em.destroy_entity entity_id).entities = em.entities := by
  unfold EntityManager.destroy_entity
  split <;> rfl

theorem destroy_store (em : EntityManager) (entity_id : Nat) :
    (em.destroy_entity entity_id).component_store = em.component_store := by
  unfold EntityManager.destroy_entity
  split <;> rfl

theorem destroy_marks (em : EntityManager) (entity_id : Nat)
    (h : entity_id ∈ em.entities) :
    entity_id ∈ (em.destroy_entity entity_id).entities_pending_deletion := by
  unfold EntityManager.destroy_entity
  simp only [if_pos h]
  exact mem_sinsert_self _ _

theorem destroy_idem (em : EntityManager) (entity_id : Nat) :
    (em.destroy_entity entity_id).destroy_entity entity_id =
      em.destroy_entity entity_id := by
  unfold EntityManager.destroy_entity
  by_cases h : entity_id ∈ em.entities
  · simp [h, sinsert_idem]
  · simp [h]


/-- Claim C2 (code bug): destruction is deferred as claimed —
`destroy_entity` changes neither existence nor any component query, and is
idempotent — but `cleanup_entities` cannot complete for any pending entity
still holding components: the final `del self._entity_components[entity_id]`
in `remove_all_components` raises `KeyError`, because the loop's last
`remove_component` already deleted that entry when the kind set emptied.  At
the failing input `emC2` (entity 1 pending, holding `Position` and
`Health`), cleanup raises instead of leaving the entity fully absent, and
the whole `GameLoop.update` aborts before the turn counter increments. -/
theorem cleanup_keyerror_on_pending_components (em : EntityManager)
    (entity_id : Nat) :
    (∀ e, (em.destroy_entity entity_id).entity_exists e =
      em.entity_exists e) ∧
    (∀ e ck, (em.destroy_entity entity_id).get_component e ck =
      em.get_component e ck) ∧
    ((em.destroy_entity entity_id).destroy_entity entity_id =
      em.destroy_entity entity_id) ∧
    (1 ∈ emC2.entities_pending_deletion ∧
      emC2.component_store.has_component 1 CKind.position = true ∧
      emC2.cleanup_entities = none ∧
      GameLoop.update gC2 (some InputAction.wait) rngHalf = none) := by
  refine ⟨?_, ?_, destroy_idem em entity_id, by decide⟩
  · intro e
    unfold EntityManager.entity_exists
    rw [destroy_entities]
  · intro e ck
    unfold EntityManager.get_component
    rw [destroy_entities, destroy_store]

/-! ## Claim C5: game over and turn resolution -/

/-- Claim C5 counterexample: with the scheduler already in `game_over`, a
delivered wait action still resolves a full turn — the update returns (no
crash) and the turn counter increments from 7 to 8.  `GameLoop.update`
never consults the game state before resolving a turn (the skip in
`TurnSchedulerSystem.update` is never invoked by the loop). -/
theorem game_over_turn_still_resolves :
    gC5.scheduler.game_state = GameState.game_over ∧
    (GameLoop.update gC5 (some InputAction.wait) rngHalf).map
      (fun g => g.scheduler.turn_number) =
      some (gC5.scheduler.turn_number + 1) := by
  decide

/-- Claim C5 (amended: GameOver is absorbing — no update ever returns a
state back in `active`, and the state remains queryable — but it does not
stop turn resolution: `GameLoop.update` never consults the game state, so
whenever an action is taken it either aborts inside entity cleanup with the
`KeyError` of C2 — a failure independent of the game state — or returns
with the full pipeline run and the turn counter incremented; with no action
taken it returns with the scheduler untouched). -/
theorem game_over_persists_turns_continue (g : GameLoop)
    (event : Option InputAction) (rng : Nat → ℚ)
    (hgo : g.scheduler.game_state = GameState.game_over) :
    (∀ g', GameLoop.update g event rng = some g' →
      g'.scheduler.game_state = GameState.game_over) ∧
    ((input_update g.em g.movement_system rng g.rng_index event).2.2.2.2 =
        true →
      ∀ g', GameLoop.update g event rng = some g' →
        g'.scheduler.turn_number = g.scheduler.turn_number + 1) ∧
    ((input_update g.em g.movement_system rng g.rng_index event).2.2.2.2 =
        true →
      (GameLoop.update g event rng = none ↔
        (combat_update
          ((input_update g.em g.movement_system rng g.rng_index
            event).2.1.update
            (ai_update
              (input_update g.em g.movement_system rng g.rng_index event).1
              g.ai_system rng
              (input_update g.em g.movement_system rng g.rng_index
                event).2.2.2.1).1).1
          rng
          (ai_update
            (input_update g.em g.movement_system rng g.rng_index event).1
            g.ai_system rng
            (input_update g.em g.movement_system rng g.rng_index
              event).2.2.2.1).2.2).1.cleanup_entities = none)) ∧
    ((input_update g.em g.movement_system rng g.rng_index event).2.2.2.2 =
        false →
      ∃ g', GameLoop.update g event rng = some g' ∧
        g'.scheduler = g.scheduler) := by
  cases htaken : (input_update g.em g.movement_system rng g.rng_index
      event).2.2.2.2 with
  | false =>
      refine ⟨?_, ?_, ?_, ?_⟩ <;>
        simp only [GameLoop.update, htaken, Bool.false_eq_true, if_false]
      · intro g' hg'
        cases hg'
        exact hgo
      · intro hc
        cases hc
      · intro hc
        cases hc
      · intro _
        exact ⟨_, rfl, rfl⟩
  | true =>
      cases hclean : (combat_update
          ((input_update g.em g.movement_system rng g.rng_index
            event).2.1.update
            (ai_update
              (input_update g.em g.movement_system rng g.rng_index event).1
              g.ai_system rng
              (input_update g.em g.movement_system rng g.rng_index
                event).2.2.2.1).1).1
          rng
          (ai_update
            (input_update g.em g.movement_system rng g.rng_index event).1
            g.ai_system rng
            (input_update g.em g.movement_system rng g.rng_index
              event).2.2.2.1).2.2).1.cleanup_entities with
      | none =>
          refine ⟨?_, ?_, ?_, ?_⟩ <;>
            simp only [GameLoop.update, htaken, if_true, hclean]
          · intro g' hg'
            cases hg'
          · intro _ g' hg'
            cases hg'
          · intro _
            simp
          · intro hc
            cases hc
      | some em_clean =>
          refine ⟨?_, ?_, ?_, ?_⟩ <;>
            simp only [GameLoop.update, htaken, if_true, hclean]
          · intro g' hg'
            cases hg'
            unfold TurnScheduler.advance_turn TurnScheduler.set_game_over
            split <;> simp [hgo]
          · intro _ g' hg'
            cases hg'
            unfold TurnScheduler.advance_turn TurnScheduler.set_game_over
            split <;> rfl
          · intro _
            simp
          · intro hc
            cases hc

/-- Witness for C5 on the concrete game-over state with a wait action,
where cleanup succeeds and the update returns. -/
theorem game_over_persists_turns_continue_witness :
    ∃ g', GameLoop.update gC5 (some InputAction.wait) rngHalf = some g' ∧
      g'.scheduler.game_state = GameState.game_over ∧
      g'.scheduler.turn_number = gC5.scheduler.turn_number + 1 := by
  have h := game_over_persists_turns_continue gC5 (some InputAction.wait)
    rngHalf (by decide)
  have hu : (GameLoop.update gC5 (some InputAction.wait) rngHalf).isSome =
      true := by decide
  obtain ⟨g', hg'⟩ := Option.isSome_iff_exists.1 hu
  exact ⟨g', hg', h.1 g' hg', h.2.1 (by decide) g' hg'⟩

/-! ## Claim C9: the greedy stepper -/

theorem chain'_concat {α : Type} (R : α → α → Prop) (l : List α) (c a : α)
    (hc : List.Chain' R l) (hl : l.getLast? = some c) (hr : R c a) :
    List.Chain' R (l ++ [a]) := by
  rw [List.chain'_append]
  refine ⟨hc, List.chain'_singleton a, ?_⟩
  intro x hx y hy
  simp only [List.head?_cons, Option.mem_def, Option.some.injEq] at hy
  subst hy
  rw [hl] at hx
  simp only [Option.mem_def, Option.some.injEq] at hx
  subst hx
  exact hr

theorem head?_concat_of_ne_nil {α : Type} (l : List α) (a : α)
    (h : l ≠ []) : (l ++ [a]).head? = l.head? := by
  cases l with
  | nil => exact absurd rfl h
  | cons x xs => rfl

theorem greedyStep_ortho (current goal : Int × Int) (rng : Nat → ℚ)
    (idx : Nat) (h : current ≠ goal) :
    orthoStep current (greedyStep current goal rng idx).1 := by
  obtain ⟨cx, cy⟩ := current
  obtain ⟨gx, gy⟩ := goal
  have hne : cx ≠ gx ∨ cy ≠ gy := by
    by_contra hc
    push_neg at hc
    exact h (by simp [hc.1, hc.2])
  unfold greedyStep orthoStep
  dsimp only
  split_ifs <;> dsimp only <;> rcases hne with hne | hne <;> omega

theorem findPathLoop_spec (goal : Int × Int) (rng : Nat → ℚ) :
    ∀ (fuel : Nat) (current : Int × Int) (path : List (Int × Int))
      (idx : Nat),
    path ≠ [] → path.getLast? = some current → List.Chain' orthoStep path →
    (findPathLoop goal rng fuel current path idx).1.head? = path.head? ∧
    List.Chain' orthoStep (findPathLoop goal rng fuel current path idx).1 ∧
    (findPathLoop goal rng fuel current path idx).1.length ≤
      path.length + fuel := by
  intro fuel
  induction fuel with
  | zero =>
      intro current path idx hne hlast hchain
      exact ⟨rfl, hchain, by simp [findPathLoop]⟩
  | succ fuel ih =>
      intro current path idx hne hlast hchain
      by_cases hgoal : current = goal
      · refine ⟨?_, ?_, ?_⟩ <;> simp only [findPathLoop, if_pos hgoal]
        · exact hchain
        · omega
      · have hortho : orthoStep current
            (greedyStep current goal rng idx).1 :=
          greedyStep_ortho current goal rng idx hgoal
        have hchain' : List.Chain' orthoStep
            (path ++ [(greedyStep current goal rng idx).1]) :=
          chain'_concat orthoStep path current _ hchain hlast hortho
        have hhead : (path ++ [(greedyStep current goal rng idx).1]).head? =
            path.head? := head?_concat_of_ne_nil path _ hne
        by_cases hg2 : (greedyStep current goal rng idx).1 = goal
        · refine ⟨?_, ?_, ?_⟩ <;>
            simp only [findPathLoop, if_neg hgoal, if_pos hg2]
          · exact hhead
          · exact hchain'
          · simp only [List.length_append, List.length_cons, List.length_nil]
            omega
        · have h := ih (greedyStep current goal rng idx).1
            (path ++ [(greedyStep current goal rng idx).1])
            (greedyStep current goal rng idx).2
            (by simp) (by simp) hchain'
          refine ⟨?_, ?_, ?_⟩ <;>
            simp only [findPathLoop, if_neg hgoal, if_neg hg2]
          · exact h.1.trans hhead
          · exact h.2.1
          · have := h.2.2
            simp only [List.length_append, List.length_cons,
              List.length_nil] at this
            omega

/-- Claim C9 counterexample: from (0,0) toward (5,1) — the x delta (5) is
strictly larger than the y delta (1) — the stepper's second position can
still be the vertical step (0,1) (there is no preference for the larger
axis: any mixed delta is resolved by a uniform draw); and from (0,0)
toward (25,0) the produced path holds 21 positions including the start,
exceeding the claimed cap of `maxSteps = 20` positions. -/
theorem find_path_no_axis_preference_and_cap :
    ((aiFresh.find_path (0, 0) (5, 1) 20 rngHalf 0).1.get? 1 =
      some (0, 1)) ∧
    (aiFresh.find_path (0, 0) (25, 0) 20 rngHalf 0).1.length = 21 := by
  constructor <;>
    norm_num [AISystem.find_path, findPathLoop, greedyStep, rngHalf, aiFresh,
      dfind] <;>
    decide

/-- Claim C9 (amended: each step is one unit along a single axis chosen by
a uniform 50% draw whenever both axes still differ — no preference for the
larger delta — and the path holds at most `maxSteps + 1 = 21` positions
including the start): a fresh computation starts at `start`, its
consecutive positions differ by one unit orthogonal step, it is capped at
21 positions, and it is stored in the cache under the exact
`(start, goal)` pair; a cached pair is answered verbatim with no state
change. -/
theorem find_path_properties (ai : AISystem) (start goal : Int × Int)
    (rng : Nat → ℚ) (idx : Nat) :
    (dfind ai.path_cache (start, goal) = none →
      (ai.find_path start goal 20 rng idx).1.head? = some start ∧
      List.Chain' orthoStep (ai.find_path start goal 20 rng idx).1 ∧
      (ai.find_path start goal 20 rng idx).1.length ≤ 21 ∧
      dfind (ai.find_path start goal 20 rng idx).2.1.path_cache
        (start, goal) = some (ai.find_path start goal 20 rng idx).1) ∧
    (∀ path, dfind ai.path_cache (start, goal) = some path →
      ai.find_path start goal 20 rng idx = (path, ai, idx)) := by
  constructor
  · intro hc
    have h := findPathLoop_spec goal rng 20 start [start] idx (by simp)
      (by simp) (by simp)
    simp only [AISystem.find_path, hc]
    refine ⟨by rw [h.1]; rfl, h.2.1, by simpa using h.2.2, ?_⟩
    exact dfind_dinsert_self _ _ _
  · intro path hc
    simp only [AISystem.find_path, hc]

/-- Witness for C9 on a fresh cache from (0,0) to (3,0). -/
theorem find_path_properties_witness :
    (aiFresh.find_path (0, 0) (3, 0) 20 rngHalf 0).1.head? = some (0, 0) ∧
    (aiFresh.find_path (0, 0) (3, 0) 20 rngHalf 0).1.length ≤ 21 := by
  have h := (find_path_properties aiFresh (0, 0) (3, 0) rngHalf 0).1
    (by decide)
  exact ⟨h.1, h.2.2.1⟩

/-! ## Claim C10: perform_attack is not guarded by can_attack -/

/-- Claim C10: `perform_attack` requires only that both entities exist, the
attacker has `CombatStats` and the defender has `CombatStats` and
`Health` — no position, distance or aliveness condition appears anywhere
in the hypotheses.  It hits exactly when the roll is at most the hit
chance; on a hit it applies full damage to the defender — even a dead
one — and fires a hit notification; but a hit on an already-dead defender
never fires a death notification (the kill flag fires only on the first
transition to dead). -/
theorem perform_attack_unguarded (em : EntityManager) (a d : Nat) (roll : ℚ)
    (sa sd : CombatStats) (hd : Health)
    (hea : em.entity_exists a = true) (hed : em.entity_exists d = true)
    (hsa : em.getCombatStats a = some sa) (hsd : em.getCombatStats d = some sd)
    (hhd : em.getHealth d = some hd) :
    ((perform_attack em a d roll).2.2 =
      decide (roll ≤ calculate_hit_chance sa.attack sd.defense)) ∧
    ((perform_attack em a d roll).2.2 = true →
      (perform_attack em a d roll).1.getHealth d =
        some (hd.take_damage (sa.calculate_damage sd.defense)).1) ∧
    ((perform_attack em a d roll).2.2 = true →
      CEvent.hit a d (sa.calculate_damage sd.defense) ∈
        (perform_attack em a d roll).2.1) ∧
    (hd.is_dead = true →
      ∀ v k, CEvent.death v k ∉ (perform_attack em a d roll).2.1) := by
  have hmem : d ∈ em.entities := by
    unfold EntityManager.entity_exists at hed
    exact of_decide_eq_true hed
  by_cases hhit : roll ≤ calculate_hit_chance sa.attack sd.defense
  · simp only [perform_attack, hea, hed, Bool.and_self, if_true, hsa, hsd,
      hhd, if_pos hhit]
    refine ⟨by simp [hhit], fun _ => ?_, fun _ => ?_, fun hdead v k => ?_⟩
    · exact getHealth_add_health em d _ hmem
    · split <;> simp
    · have hkill : (hd.take_damage (sa.calculate_damage sd.defense)).2 =
          false := by
        rw [take_damage_flag, hdead]
        rfl
      simp [hkill]
  · simp only [perform_attack, hea, hed, Bool.and_self, if_true, hsa, hsd,
      hhd, if_neg hhit]
    refine ⟨by simp [hhit], fun hc => ?_, fun hc => ?_, fun _ v k => ?_⟩
    · cases hc
    · cases hc
    · simp

/-- Witness for C10: the spec scenario — player profile (atk 5, def 2,
power 5) attacking the goblin (def 1, 10/10 HP) from eight tiles away with
a forced hit roll of 0 deals `max(1, 5 - 0) = 5` damage. -/
theorem perform_attack_unguarded_witness :
    (perform_attack emC10 0 1 0).2.2 = true ∧
    (perform_attack emC10 0 1 0).1.getHealth 1 =
      some ((Health.init 10 10).take_damage
        (CombatStats.calculate_damage ⟨5, 2, 5⟩ 1)).1 := by
  have h := perform_attack_unguarded emC10 0 1 0 ⟨5, 2, 5⟩ ⟨3, 1, 3⟩
    (Health.init 10 10) (by decide) (by decide) (by decide) (by decide)
    (by decide)
  have hflag : (perform_attack emC10 0 1 0).2.2 = true := by
    rw [h.1]
    simp only [decide_eq_true_eq]
    unfold calculate_hit_chance
    rw [max_def, min_def]
    norm_num
  exact ⟨hflag, h.2.1 hflag⟩

end Roguelike
